import Mathlib

/-!
# PMWiki RAG orchestration core — verification development

Shallow embedding of the citation-focused RAG pipeline of the PMWiki backend
(`backend/app/services/rag_service.py`, `backend/app/services/groq_service.py`,
`backend/app/services/voyage_service.py`) together with proofs of the
behavioural properties stated in the specification.

Modelling conventions:
* Similarity scores (Python floats in `[0, 1]`) are modelled as rationals (`Rat`).
* The external collaborators (embedding provider, vector index, metadata store,
  generation provider) are modelled as an explicit environment (`Env`) of pure
  functions; the relational metadata store is the list of `SectionRecord` rows.
* Python string slicing `s[:n]` operates on characters, modelled by taking a
  prefix of `String.data`.
* The vector index returns each stored point at most once per search, and
  search results are ordered by descending score; theorems that depend on
  these facts take them as explicit hypotheses on the environment.
-/

/-- Python's `s[:n]` slice: the first `n` characters of `s`. -/
def contentTake (n : Nat) (s : String) : String :=
  ⟨s.data.take n⟩

/-- A row of the `document_sections` table, restricted to the columns selected
by the RAG service queries (`id, standard, section_number, section_title,
page_start, page_end, content_cleaned as content, citation_key`). -/
structure SectionRecord where
  id : String
  standard : String
  section_number : String
  section_title : String
  page_start : Nat
  page_end : Option Nat
  content : String
  citation_key : String
deriving Repr, DecidableEq

/-- One hit returned by the vector index: `{'id': ..., 'score': ...}`
(the payload is never read by the RAG service). -/
structure SearchHit where
  id : String
  score : Rat
deriving Repr, DecidableEq

/-- An enriched chunk flowing through the pipeline: a `SectionRecord` joined
with its retrieval score, plus the `is_primary` flag that
`query_with_citations` sets before prompt assembly. -/
structure Chunk where
  id : String
  standard : String
  section_number : String
  section_title : String
  page_start : Nat
  page_end : Option Nat
  content : String
  citation_key : String
  score : Rat
  is_primary : Bool := false
deriving Repr, DecidableEq

/-- `standards = ["PMBOK", "PRINCE2", "ISO_21502"]` (rag_service.py line 65). -/
def standardsList : List String :=
  ["PMBOK", "PRINCE2", "ISO_21502"]

/-- Lookup in the `scores` dict built by
`scores = {str(r['id']): r['score'] for r in results}`, with the default `0.0`
of `scores.get(chunk['id'], 0.0)`.  A Python dict keeps the *last* value for a
duplicated key while this first-match lookup keeps the first; the vector index
never returns the same point twice in one search, and every theorem whose
truth depends on which duplicate wins carries a `Nodup` hypothesis on the
result ids, under which the two lookups agree. -/
def scoreLookup : List (String × Rat) → String → Rat
  | [], _ => 0
  | (k, v) :: rest, i => if k = i then v else scoreLookup rest i

/-- `SELECT ... FROM document_sections WHERE id::text = :i`: keyed lookup of a
row by its primary key. -/
def dbFind (table : List SectionRecord) (i : String) : Option SectionRecord :=
  table.find? (fun r => r.id == i)

/-- Build a pipeline chunk from a database row and its retrieval score
(`chunk = dict(row._mapping); chunk['score'] = ...`). -/
def recordToChunk (r : SectionRecord) (score : Rat) : Chunk :=
  { id := r.id, standard := r.standard, section_number := r.section_number,
    section_title := r.section_title, page_start := r.page_start,
    page_end := r.page_end, content := r.content,
    citation_key := r.citation_key, score := score, is_primary := false }

/-- `RAGService._fetch_chunk_metadata` for one standard's result list:
`WHERE id::text = ANY(:ids) ORDER BY array_position(:ids, id::text)` returns
the matching rows in the order their ids occur in the search results; ids with
no matching row are silently absent.  Each row then gets
`chunk['score'] = scores.get(chunk['id'], 0.0)`.  (The same computation also
models the metadata fetch inside `generate_process`, whose SQL has no
`ORDER BY`: the properties proved about that path do not depend on row
order.) -/
def fetchChunkMetadata (table : List SectionRecord) (results : List SearchHit) :
    List Chunk :=
  let scores := results.map (fun r => (r.id, r.score))
  (results.map (fun r => r.id)).filterMap (fun i =>
    (dbFind table i).map (fun r => recordToChunk r (scoreLookup scores r.id)))

/-- Page-reference formatting shared by `RAGService._format_citation` and
`GroqService._format_chunk_citation`: `page_ref = "p. {page_start}"`, replaced
by `"pp. {page_start}-{page_end}"` when `page_end` is truthy (present and
non-zero) and differs from `page_start`. -/
def chunkPageRef (page_start : Nat) (page_end : Option Nat) : String :=
  match page_end with
  | some pe =>
      if pe ≠ 0 ∧ pe ≠ page_start then
        "pp. " ++ toString page_start ++ "-" ++ toString pe
      else
        "p. " ++ toString page_start
  | none => "p. " ++ toString page_start

/-- The `year_map` dict of `RAGService._format_citation`. -/
def yearMap : List (String × String) :=
  [("PMBOK", "2021"), ("PRINCE2", "2017"), ("ISO_21502", "2020")]

/-- `year_map.get(standard, '2021')`. -/
def yearLookup : List (String × String) → String → String
  | [], _ => "2021"
  | (k, v) :: rest, s => if k = s then v else yearLookup rest s

/-- `RAGService._format_citation`: returns
`f"{standard} ({year}), Section {section}, {page_ref}"`. -/
def formatCitation (c : Chunk) : String :=
  let year := yearLookup yearMap c.standard
  c.standard ++ " (" ++ year ++ "), Section " ++ c.section_number ++ ", " ++
    chunkPageRef c.page_start c.page_end

/-- `GroqService._format_chunk_citation`: returns
`f"Section {section}: {title} ({page_ref})"`. -/
def formatChunkCitation (c : Chunk) : String :=
  "Section " ++ c.section_number ++ ": " ++ c.section_title ++ " (" ++
    chunkPageRef c.page_start c.page_end ++ ")"

/-- The fixed system prompt of `GroqService._build_citation_system_prompt`. -/
def citationSystemPrompt : String :=
  "You are an expert project management assistant specializing in PMBOK 7th Edition (2021), PRINCE2 (2017), and ISO 21502:2020 standards.\n\nYour role is to provide accurate, citation-backed answers to questions about project management standards. You MUST:\n\n1. **Citation Requirements**:\n   - Always cite the exact standard, section number, and page number\n   - Use format: \"(Standard Section X.Y, p. Z)\" or \"(Standard Section X.Y, pp. Z1-Z2)\"\n   - Only reference information explicitly provided in the context\n   - Never fabricate or infer information not in the source material\n\n2. **Response Structure**:\n   - Start with a clear, direct answer to the question\n   - Provide specific details from EACH standard\x27s perspective\n   - Highlight key differences or similarities between standards\n   - Keep responses concise but comprehensive (2-4 paragraphs)\n\n3. **Accuracy & Tone**:\n   - Be precise and academic in tone\n   - Use exact terminology from the standards\n   - If information is not available in context, explicitly state this\n   - Never make assumptions beyond what\x27s in the provided text\n\n4. **Additional Context**:\n   - You will be provided with the highest-scoring chunk from each standard\n   - Additional relevant chunks may be included for broader context\n   - Focus primarily on the highest-scoring chunks but integrate supporting details"

/-- First element of the citation user prompt: `f"Question: {query}\n"`. -/
def questionPart (q : String) : String :=
  "Question: " ++ q ++ "\n"

/-- Heading inserted before the primary chunks. -/
def primaryHeadingPart : String :=
  "\n=== PRIMARY CONTEXT (Highest Relevance) ===\n"

/-- Heading inserted before the additional chunks. -/
def additionalHeadingPart : String :=
  "\n=== ADDITIONAL CONTEXT (Supporting Information) ===\n"

/-- Closing instruction of the citation user prompt. -/
def citationClosingPart : String :=
  "\nProvide a comprehensive answer with proper citations:"

/-- Per-chunk header line `f"\n**{chunk['standard']}** - {citation}"`. -/
def chunkHeaderPart (c : Chunk) : String :=
  "\n**" ++ c.standard ++ "** - " ++ formatChunkCitation c

/-- The two parts appended for a primary chunk: header plus the chunk content
in full (`f"Content: {chunk['content']}\n"`). -/
def citationEntryFull (c : Chunk) : List String :=
  [chunkHeaderPart c, "Content: " ++ c.content ++ "\n"]

/-- The two parts appended for an additional chunk: header plus the content
truncated to its first 300 characters
(`f"Content: {chunk['content'][:300]}...\n"`). -/
def citationEntryTrunc (c : Chunk) : List String :=
  [chunkHeaderPart c, "Content: " ++ contentTake 300 c.content ++ "...\n"]

/-- `GroqService._build_citation_user_prompt` as the `prompt_parts` list that
Python builds and finally joins with `"".join(prompt_parts)`. -/
def buildCitationUserPromptParts (q : String) (context_chunks : List Chunk) :
    List String :=
  let primary_chunks := context_chunks.filter (fun c => c.is_primary)
  let additional_chunks := context_chunks.filter (fun c => !c.is_primary)
  [questionPart q]
    ++ (if primary_chunks.isEmpty then [] else
          primaryHeadingPart :: primary_chunks.flatMap citationEntryFull)
    ++ (if additional_chunks.isEmpty then [] else
          additionalHeadingPart :: additional_chunks.flatMap citationEntryTrunc)
    ++ [citationClosingPart]

/-- The joined citation user prompt string. -/
def buildCitationUserPrompt (q : String) (context_chunks : List Chunk) : String :=
  String.join (buildCitationUserPromptParts q context_chunks)

/-- The external collaborators of the RAG orchestrator, as pure functions:
the embedding provider, the vector index (per-standard filtered search and
global search), the `document_sections` table, and the generation provider
(returning the completion text for a message list). -/
structure Env where
  embed : String → List Rat
  searchStd : List Rat → String → Nat → Rat → List SearchHit
  searchAll : List Rat → Nat → Rat → List SearchHit
  table : List SectionRecord
  generateContent : List (String × String) → String

/-- `chunk_data[standard]` in `query_with_citations`: the enriched hits of one
standard for the given query/limit/threshold. -/
def enrichedFor (env : Env) (q : String) (tk : Nat) (thr : Rat) (std : String) :
    List Chunk :=
  fetchChunkMetadata env.table (env.searchStd (env.embed q) std tk thr)

/-- One source reference of the response
(`primary_sources` / `additional_context` entries). -/
structure SourceRef where
  id : String
  standard : String
  section_number : String
  section_title : String
  page_start : Nat
  page_end : Option Nat
  content : String
  citation : String
  relevance_score : Rat
deriving Repr, DecidableEq

/-- Project a pipeline chunk onto the response shape of
`query_with_citations` (steps 6 of the method). -/
def chunkToSourceRef (c : Chunk) : SourceRef :=
  { id := c.id, standard := c.standard, section_number := c.section_number,
    section_title := c.section_title, page_start := c.page_start,
    page_end := c.page_end, content := c.content,
    citation := formatCitation c, relevance_score := c.score }

/-- The structured result of `query_with_citations`. -/
structure QueryResult where
  query : String
  answer : String
  primary_sources : List SourceRef
  additional_context : List SourceRef
  chunks_retrieved : Nat
  primary_sources_count : Nat
  additional_sources_count : Nat
deriving Repr, DecidableEq

/-- `RAGService.query_with_citations`: embeds the query, searches each of the
three standards with the shared limit and threshold, enriches the hits with
database metadata, takes the first enriched chunk per standard as primary and
the rest as additional, invokes the generation provider once on the citation
prompt, and assembles the structured response. -/
def queryWithCitations (env : Env) (q : String) (tk : Nat) (thr : Rat) :
    QueryResult :=
  let primary_chunks := standardsList.filterMap (fun std =>
    ((enrichedFor env q tk thr std).head?).map
      (fun c => { c with is_primary := true }))
  let additional_chunks := standardsList.flatMap (fun std =>
    ((enrichedFor env q tk thr std).drop 1).map
      (fun c => { c with is_primary := false }))
  let all_context := primary_chunks ++ additional_chunks
  let answer := env.generateContent
    [("system", citationSystemPrompt), ("user", buildCitationUserPrompt q all_context)]
  { query := q, answer := answer,
    primary_sources := primary_chunks.map chunkToSourceRef,
    additional_context := additional_chunks.map chunkToSourceRef,
    chunks_retrieved := all_context.length,
    primary_sources_count := primary_chunks.length,
    additional_sources_count := additional_chunks.length }

/-- An external call made by `query_with_citations`. -/
inductive ExtCall where
  | embedQuery (q : String)
  | vectorSearch (standard : String) (limit : Nat) (score_threshold : Rat)
  | metadataFetch (ids : List String)
  | llmGenerate
deriving Repr, DecidableEq

/-- The sequence of external calls `query_with_citations` performs, in program
order: the embedding call first, then one filtered vector search per standard,
then one metadata fetch per standard with non-empty results, then the single
generation call.  The method itself contains no parameter validation: every
query string, including the empty one, reaches the embedding provider. -/
def queryWithCitationsTrace (env : Env) (q : String) (tk : Nat) (thr : Rat) :
    List ExtCall :=
  ExtCall.embedQuery q ::
    ((standardsList.map (fun std => ExtCall.vectorSearch std tk thr))
      ++ (standardsList.filterMap (fun std =>
            let results := env.searchStd (env.embed q) std tk thr
            if results.isEmpty then none
            else some (ExtCall.metadataFetch (results.map (fun h => h.id)))))
      ++ [ExtCall.llmGenerate])

/-- The transport-layer request validation of the `/search` endpoint
(`SearchRequest` in `backend/app/schemas/search.py`): `query` must have
between 3 and 500 characters, `top_k_per_standard` between 1 and 10, and
`score_threshold` between 0 and 1. -/
def searchRequestValid (query : String) (top_k : Nat) (thr : Rat) : Bool :=
  decide (3 ≤ query.length) && decide (query.length ≤ 500) &&
  decide (1 ≤ top_k) && decide (top_k ≤ 10) &&
  decide ((0 : Rat) ≤ thr) && decide (thr ≤ 1)

/-- The search-query list built at the start of `RAGService.generate_process`:
four fixed lifecycle queries, then the focus areas, then one query per
priority capped at the first two (`None` and the empty list are both falsy in
the Python conditionals). -/
def processSearchQueries (project_type : String)
    (focus_areas priorities : Option (List String)) : List String :=
  let core := [project_type ++ " project lifecycle phases",
               "project initiation and planning",
               "project execution and monitoring",
               "project closure and lessons learned"]
  core
    ++ (match focus_areas with | some fa => fa | none => [])
    ++ (match priorities with
        | some ps => (ps.take 2).map (fun p => p ++ " in project management")
        | none => [])

/-- `all_chunks` in `generate_process`: for every search query, embed it,
search the global (unfiltered) index with the fixed threshold `0.45`, and
enrich the hits with database metadata.  (The `search_query` field Python
attaches to each chunk is never read downstream and is omitted.) -/
def processAllChunks (env : Env) (project_type : String)
    (focus_areas priorities : Option (List String)) (top_k : Nat) : List Chunk :=
  (processSearchQueries project_type focus_areas priorities).flatMap (fun sq =>
    fetchChunkMetadata env.table (env.searchAll (env.embed sq) top_k (9/20)))

/-- One step of the `seen_ids` dict update in `generate_process`:
`if chunk_id not in seen_ids or chunk['score'] > seen_ids[chunk_id]['score']:
seen_ids[chunk_id] = chunk`.  Replacing the value of an existing key keeps its
insertion position, exactly as a Python dict does. -/
def upsertMax : List Chunk → Chunk → List Chunk
  | [], c => [c]
  | d :: ds, c =>
      if d.id = c.id then
        (if d.score < c.score then c :: ds else d :: ds)
      else
        d :: upsertMax ds c

/-- `unique_chunks = list(seen_ids.values())`: deduplicate by section id,
keeping the chunk with the strictly greatest score (ties keep the first
occurrence), in first-insertion order. -/
def dedupByMaxScore (l : List Chunk) : List Chunk :=
  l.foldl upsertMax []

/-- The descending-score ordering used by
`unique_chunks.sort(key=lambda x: x['score'], reverse=True)`. -/
def chunkGE (a b : Chunk) : Prop :=
  b.score ≤ a.score

instance : DecidableRel chunkGE :=
  fun a b => inferInstanceAs (Decidable (b.score ≤ a.score))

instance : IsTotal Chunk chunkGE :=
  ⟨fun a b => le_total b.score a.score⟩

instance : IsTrans Chunk chunkGE :=
  ⟨fun _ _ _ hab hbc => le_trans hbc hab⟩

/-- Python's `list.sort(key=..., reverse=True)` is a stable sort; insertion
sort with the (total, transitive) descending-score relation computes the same
stable ordering. -/
def sortByScoreDesc (l : List Chunk) : List Chunk :=
  List.insertionSort chunkGE l

/-- `top_chunks = unique_chunks[:15]` after the descending sort. -/
def processTopChunks (env : Env) (project_type : String)
    (focus_areas priorities : Option (List String)) (top_k : Nat) : List Chunk :=
  (sortByScoreDesc (dedupByMaxScore
    (processAllChunks env project_type focus_areas priorities top_k))).take 15

/-- One chunk entry of the process user prompt:
`f"\n{citation}\n{chunk['content'][:400]}...\n"`. -/
def processChunkPart (c : Chunk) : String :=
  "\n" ++ formatChunkCitation c ++ "\n" ++ contentTake 400 c.content ++ "...\n"

/-- The per-standard block of `GroqService._build_process_user_prompt`: if the
standard contributed chunks, its heading followed by one entry per chunk of
the first five (`chunks[:5]`); otherwise nothing. -/
def processStdBlock (heading : String) (chunks : List Chunk) : List String :=
  if chunks.isEmpty then [] else
    heading :: (chunks.take 5).map processChunkPart

/-- The scenario header of the process user prompt (empty optional lists are
falsy and contribute nothing). -/
def processScenarioParts (project_description project_type project_size : String)
    (constraints priorities focus_areas : List String) : List String :=
  ["=== PROJECT SCENARIO ===\n",
   "Project Type: " ++ project_type ++ "\n",
   "Project Size: " ++ project_size ++ "\n",
   "Description: " ++ project_description ++ "\n"]
    ++ (if constraints.isEmpty then [] else
          ["\nConstraints: " ++ String.intercalate ", " constraints])
    ++ (if priorities.isEmpty then [] else
          ["\nPriorities: " ++ String.intercalate ", " priorities])
    ++ (if focus_areas.isEmpty then [] else
          ["\nFocus Areas: " ++ String.intercalate ", " focus_areas])

/-- Heading inserted before the standards content of the process prompt. -/
def standardsContentHeading : String :=
  "\n\n=== RELEVANT STANDARDS CONTENT ===\n"

/-- The PMBOK block heading of the process prompt. -/
def pmbokBlockHeading : String :=
  "\n--- PMBOK 7th Edition (2021) ---\n"

/-- The PRINCE2 block heading of the process prompt. -/
def prince2BlockHeading : String :=
  "\n--- PRINCE2 (2017) ---\n"

/-- The ISO 21502 block heading of the process prompt. -/
def isoBlockHeading : String :=
  "\n--- ISO 21502:2020 ---\n"

/-- The task footer of the process prompt. -/
def processTaskParts : List String :=
  ["\n=== TASK ===\n",
   "Generate a tailored project process for this scenario using the format specified in the system prompt. ",
   "Ensure all recommendations address the stated constraints, priorities, and focus areas. ",
   "Return ONLY the JSON object, no additional text."]

/-- `GroqService._build_process_user_prompt` as the `prompt_parts` list Python
joins with `"".join(prompt_parts)`: scenario header, standards-content heading,
one block per standard (each limited to the standard's first five chunks,
each entry truncated to 400 characters of content), and the task footer. -/
def buildProcessUserPromptParts
    (project_description project_type project_size : String)
    (constraints priorities focus_areas : List String)
    (context_chunks : List Chunk) : List String :=
  processScenarioParts project_description project_type project_size
      constraints priorities focus_areas
    ++ [standardsContentHeading]
    ++ processStdBlock pmbokBlockHeading
        (context_chunks.filter (fun c => c.standard == "PMBOK"))
    ++ processStdBlock prince2BlockHeading
        (context_chunks.filter (fun c => c.standard == "PRINCE2"))
    ++ processStdBlock isoBlockHeading
        (context_chunks.filter (fun c => c.standard == "ISO_21502"))
    ++ processTaskParts

/-- The fixed system prompt of `GroqService._build_process_system_prompt`
(literal braces of the embedded JSON template written as `\x7b`/`\x7d`). -/
def processSystemPrompt : String :=
  "You are an expert project management consultant with deep knowledge of PMBOK 7th Edition (2021), PRINCE2 (2017), and ISO 21502:2020 standards.\n\nYour role is to generate tailored, evidence-based project processes for specific scenarios. You MUST:\n\n1. **Process Design Requirements**:\n   - Create a practical, actionable process tailored to the specific project scenario\n   - Base all recommendations on the provided standard content (cite sources)\n   - Consider project constraints, priorities, and focus areas explicitly\n   - Recommend 3-5 phases appropriate for the project type and size\n   - For each phase: provide key activities, deliverables, and duration guidance\n\n2. **Recommendations**:\n   - Provide 4-6 specific, actionable recommendations\n   - Each recommendation must address constraints/priorities/focus areas\n   - Include justification explaining WHY this fits the scenario\n   - Cite specific standards supporting each recommendation\n   - Format: Area, Recommendation, Justification, Source Standards, Citations\n\n3. **Tailoring Rationale**:\n   - Explain HOW and WHY you adapted standard practices for this project\n   - Address constraints directly (e.g., \"Due to tight deadline, we emphasize...\")\n   - Explain priority-driven choices (e.g., \"Given quality focus, we recommend...\")\n   - Show which standard practices were emphasized/de-emphasized and why\n\n4. **Standards Alignment**:\n   - Explain how your process aligns with each of the three standards\n   - Show which elements came from PMBOK, PRINCE2, and ISO 21502\n   - Be specific about what you borrowed from each\n\n5. **Output Format**:\n   - Return a valid JSON object matching this structure:\n   ```json\n   \x7b\n     \"overview\": \"High-level approach summary (2-3 sentences)\",\n     \"phases\": [\n       \x7b\n         \"phase_name\": \"Phase name\",\n         \"description\": \"What this phase accomplishes\",\n         \"key_activities\": [\"Activity 1\", \"Activity 2\", ...],\n         \"deliverables\": [\"Deliverable 1\", \"Deliverable 2\", ...],\n         \"duration_guidance\": \"e.g., \x2710-15% of timeline\x27 or \x272-3 weeks\x27\"\n       \x7d\n     ],\n     \"key_recommendations\": [\n       \x7b\n         \"area\": \"e.g., Risk Management\",\n         \"recommendation\": \"Specific actionable recommendation\",\n         \"justification\": \"Why this fits the scenario\",\n         \"source_standards\": [\"PMBOK\", \"ISO_21502\"],\n         \"citations\": [\"PMBOK (2021), Section X.Y, p. Z\"]\n       \x7d\n     ],\n     \"tailoring_rationale\": \"Detailed explanation of how/why process was tailored\",\n     \"standards_alignment\": \x7b\n       \"PMBOK\": \"How this process aligns with PMBOK\",\n       \"PRINCE2\": \"How this process aligns with PRINCE2\",\n       \"ISO_21502\": \"How this process aligns with ISO 21502\"\n     \x7d\n   \x7d\n   ```\n\n6. **Critical Rules**:\n   - Only use information from provided context chunks\n   - Always cite sources using exact section and page numbers\n   - Be pragmatic - balance theory with practical implementation\n   - Never invent practices not supported by provided standards content"

/-- The structured result of `generate_process`. -/
structure ProcessResult where
  project_type : String
  project_size : String
  process_data : String
  source_sections_count : Nat
  standards_used : List String
deriving Repr

/-- `RAGService.generate_process`: gather evidence over all search queries,
deduplicate by id keeping the best score, sort descending and keep the top 15,
invoke the generation provider once on the process prompt, and assemble the
result.  Python's `list(set(...))` for `standards_used` has arbitrary order;
it is modelled by `dedup`, and only membership is ever relied upon. -/
def generateProcess (env : Env)
    (project_description project_type project_size : String)
    (constraints priorities focus_areas : Option (List String))
    (top_k : Nat) : ProcessResult :=
  let top := processTopChunks env project_type focus_areas priorities top_k
  let user := String.join (buildProcessUserPromptParts
    project_description project_type project_size
    (constraints.getD []) (priorities.getD []) (focus_areas.getD []) top)
  let content := env.generateContent [("system", processSystemPrompt), ("user", user)]
  { project_type := project_type, project_size := project_size,
    process_data := content,
    source_sections_count := top.length,
    standards_used := (top.map (fun c => c.standard)).dedup }

/-- The outcome of one call to the Groq chat-completions API, as seen by the
`try`/`except` of `GroqService.generate_response`. -/
inductive GroqOutcome where
  | ok (content model : String)
      (prompt_tokens completion_tokens total_tokens : Nat)
      (finish_reason : String)
  | connectionError (e : String)
  | rateLimitError (e : String)
  | statusError (status_code : Nat)
deriving Repr, DecidableEq

/-- The successful result dictionary of `GroqService.generate_response`. -/
structure GenResponse where
  content : String
  model : String
  prompt_tokens : Nat
  completion_tokens : Nat
  total_tokens : Nat
  finish_reason : String
deriving Repr, DecidableEq

/-- `GroqService.generate_response`: on success returns the result dictionary;
each of the three provider failure kinds is re-raised as a single generic
exception (`raise Exception(...)`) whose message retains the kind. -/
def generateResponse (o : GroqOutcome) : Except String GenResponse :=
  match o with
  | .ok c m p k t f =>
      .ok { content := c, model := m, prompt_tokens := p,
            completion_tokens := k, total_tokens := t, finish_reason := f }
  | .connectionError e => .error ("Groq API connection error: " ++ e)
  | .rateLimitError _ =>
      .error "Groq API rate limit exceeded. Please try again later."
  | .statusError code => .error ("Groq API error: " ++ toString code)

/-- The three provider failure kinds of the specification's
`GenerationFailed` taxonomy. -/
inductive FailureKind where
  | connectivity
  | rateLimited
  | providerStatus
deriving Repr, DecidableEq

/-- The failure kind of a provider outcome (`none` for a success). -/
def groqFailureKind : GroqOutcome → Option FailureKind
  | .connectionError _ => some .connectivity
  | .rateLimitError _ => some .rateLimited
  | .statusError _ => some .providerStatus
  | .ok .. => none

/-- The fixed message prefix of the connectivity failure. -/
def connErrMsgStart : String :=
  "Groq API connection error: "

/-- The fixed message of the rate-limit failure. -/
def rateLimitMsg : String :=
  "Groq API rate limit exceeded. Please try again later."

/-- The fixed message prefix of the provider-status failure. -/
def statusErrMsgStart : String :=
  "Groq API error: "

/-- Recover the failure kind from a raised error message: the three message
shapes produced by `generate_response` are pairwise disjoint, so the
distinguishing kind is preserved in the single raised exception. -/
def failureKindOfMessage (m : String) : Option FailureKind :=
  if connErrMsgStart.data.isPrefixOf m.data then some .connectivity
  else if m = rateLimitMsg then some .rateLimited
  else if statusErrMsgStart.data.isPrefixOf m.data then some .providerStatus
  else none

/-- The outcome of one embedding attempt for a batch, as seen by the
`try`/`except` inside `VoyageEmbeddingService.embed_texts`. -/
inductive EmbedAttempt where
  | ok
  | rateLimited
  | otherError
deriving Repr, DecidableEq

/-- How one batch of `embed_texts` terminates. -/
inductive EmbedFailure where
  | rateLimitExhausted
  | otherFailure
deriving Repr, DecidableEq

/-- The retry loop of `VoyageEmbeddingService.embed_texts` for one batch:

```
retries = 0
while retries < max_retries:
    try: ...; break
    except RateLimitError: retries += 1
        if retries >= max_retries: raise
        wait_time = delay_between_batches * retries; time.sleep(wait_time)
```

`provider n` is the outcome of the `n`-th attempt; the returned list is the
sequence of sleep durations and the `Option` the terminal failure (if any).
The `while` guard `retries < max_retries` is encoded structurally by the fuel
argument, maintained equal to `max_retries - retries`. -/
def embedBatchGo (provider : Nat → EmbedAttempt) (max_retries : Nat) (delay : Rat) :
    Nat → Nat → Nat → List Rat → List Rat × Option EmbedFailure
  | 0, _, _, waits => (waits, none)
  | fuel + 1, retries, attempt, waits =>
      match provider attempt with
      | .ok => (waits, none)
      | .otherError => (waits, some .otherFailure)
      | .rateLimited =>
          if max_retries ≤ retries + 1 then (waits, some .rateLimitExhausted)
          else
            embedBatchGo provider max_retries delay fuel (retries + 1) (attempt + 1)
              (waits ++ [delay * ((retries : Rat) + 1)])

/-- Run the retry loop for one batch from its initial state. -/
def embedBatchRun (provider : Nat → EmbedAttempt) (max_retries : Nat) (delay : Rat) :
    List Rat × Option EmbedFailure :=
  embedBatchGo provider max_retries delay max_retries 0 0 []

/-- The sleep durations one batch incurs. -/
def embedBatchWaits (provider : Nat → EmbedAttempt) (max_retries : Nat)
    (delay : Rat) : List Rat :=
  (embedBatchRun provider max_retries delay).1

/-- The terminal failure of one batch (if any). -/
def embedBatchOutcome (provider : Nat → EmbedAttempt) (max_retries : Nat)
    (delay : Rat) : Option EmbedFailure :=
  (embedBatchRun provider max_retries delay).2

/-- Modelled from the spec: the APA format the specification *claims* the
citation formatter produces —
`"{corpus} ({publication_year}). Section {section_number}: {section_title}.
{page_ref}."` with `page_ref = "p. {page_start}"` when `page_end` is absent or
equals `page_start`, else `"pp. {page_start}-{page_end}"`.  Defined only for
comparison against the code's `formatCitation`. -/
def specApaCitation (c : Chunk) : String :=
  let year := if c.standard = "PMBOK" then "2021"
              else if c.standard = "PRINCE2" then "2017"
              else if c.standard = "ISO_21502" then "2020" else "2021"
  let page_ref := if c.page_end = none ∨ c.page_end = some c.page_start then
                    "p. " ++ toString c.page_start
                  else
                    "pp. " ++ toString c.page_start ++ "-" ++
                      toString (c.page_end.getD c.page_start)
  c.standard ++ " (" ++ year ++ "). Section " ++ c.section_number ++ ": " ++
    c.section_title ++ ". " ++ page_ref ++ "."

/-- The publication-year table as the amended claim states it (a three-entry
lookup with default `"2021"`). -/
def amendedYear (standard : String) : String :=
  if standard = "PMBOK" then "2021"
  else if standard = "PRINCE2" then "2017"
  else if standard = "ISO_21502" then "2020" else "2021"

/-- The page reference as the amended claim states it: `"p. {page_start}"`
when `page_end` is absent or equals `page_start`, else
`"pp. {page_start}-{page_end}"`. -/
def amendedPageRef (page_start : Nat) (page_end : Option Nat) : String :=
  if page_end = none ∨ page_end = some page_start then
    "p. " ++ toString page_start
  else
    "pp. " ++ toString page_start ++ "-" ++ toString (page_end.getD page_start)

/-- The citation string as the amended claim states it:
`"{corpus} ({year}), Section {section_number}, {page_ref}"` — comma-separated,
no section title, no trailing period. -/
def amendedCitation (c : Chunk) : String :=
  c.standard ++ " (" ++ amendedYear c.standard ++ "), Section " ++
    c.section_number ++ ", " ++ amendedPageRef c.page_start c.page_end

/-- Example rows of the metadata store, used to instantiate theorems with
hypotheses at a concrete environment. -/
def exRecP1 : SectionRecord :=
  { id := "p1", standard := "PMBOK", section_number := "2.8.5",
    section_title := "Risk", page_start := 122, page_end := none,
    content := "Risk is an uncertain event or condition.",
    citation_key := "PMBOK-2.8.5-122" }

def exRecP2 : SectionRecord :=
  { id := "p2", standard := "PMBOK", section_number := "2.8.6",
    section_title := "Quality", page_start := 130, page_end := some 131,
    content := "Quality focuses on meeting acceptance criteria.",
    citation_key := "PMBOK-2.8.6-130" }

def exRecQ1 : SectionRecord :=
  { id := "q1", standard := "PRINCE2", section_number := "8.4",
    section_title := "Risk theme", page_start := 58, page_end := some 61,
    content := "The purpose of the risk theme.",
    citation_key := "PRINCE2-8.4-58" }

def exRecR1 : SectionRecord :=
  { id := "r1", standard := "ISO_21502", section_number := "7.8",
    section_title := "Managing risk", page_start := 33, page_end := none,
    content := "Risk management should be performed.",
    citation_key := "ISO_21502-7.8-33" }

def exTable : List SectionRecord :=
  [exRecP1, exRecP2, exRecQ1, exRecR1]

/-- A concrete environment: every corpus has hits above the threshold, the
index returns them sorted descending with distinct ids, and the table covers
every returned id. -/
def exEnv : Env :=
  { embed := fun _ => [1],
    searchStd := fun _ std _ _ =>
      if std = "PMBOK" then [{ id := "p1", score := 7 }, { id := "p2", score := 5 }]
      else if std = "PRINCE2" then [{ id := "q1", score := 6 }]
      else if std = "ISO_21502" then [{ id := "r1", score := 6 }]
      else [],
    searchAll := fun _ _ _ => [{ id := "p1", score := 7 }, { id := "q1", score := 6 }],
    table := exTable,
    generateContent := fun _ => "generated answer" }

/-- The enriched PMBOK chunk the example environment produces. -/
def exProcChunkP : Chunk :=
  recordToChunk exRecP1 7

/-- The primary PMBOK source reference the example environment produces. -/
def exPrimaryRefP : SourceRef :=
  chunkToSourceRef exProcChunkP

/-- A concrete chunk for the citation-format theorems (single page). -/
def exChunkRisk : Chunk :=
  recordToChunk exRecP1 1

/-- A concrete chunk for the citation-format theorems (page range). -/
def exChunkPages : Chunk :=
  recordToChunk exRecQ1 1

/-- A concrete primary chunk for the citation-prompt theorems. -/
def exChunkPrim : Chunk :=
  { exProcChunkP with is_primary := true }

/-- A concrete additional chunk for the citation-prompt theorems. -/
def exChunkAdd : Chunk :=
  { recordToChunk exRecQ1 1 with is_primary := false }

/-! ## Helper lemmas -/

theorem contentTake_contentTake (n : Nat) (s : String) :
    contentTake n (contentTake n s) = contentTake n s := by
  simp [contentTake, List.take_take]

theorem chunkToSourceRef_set_primary (c : Chunk) (b : Bool) :
    chunkToSourceRef { c with is_primary := b } = chunkToSourceRef c := rfl

theorem scoreLookup_mem {l : List (String × Rat)} {i : String}
    (h : i ∈ l.map Prod.fst) : (i, scoreLookup l i) ∈ l := by
  induction l with
  | nil => simp at h
  | cons p rest ih =>
      obtain ⟨k, v⟩ := p
      by_cases hk : k = i
      · subst hk
        simp [scoreLookup]
      · simp only [scoreLookup, if_neg hk]
        have : i ∈ rest.map Prod.fst := by
          rcases List.mem_map.mp h with ⟨q, hq, hqi⟩
          rcases List.mem_cons.mp hq with rfl | hq'
          · exact absurd hqi hk
          · exact List.mem_map.mpr ⟨q, hq', hqi⟩
        exact List.mem_cons_of_mem _ (ih this)

theorem dbFind_id {table : List SectionRecord} {i : String} {r : SectionRecord}
    (h : dbFind table i = some r) : r.id = i := by
  have := List.find?_some h
  simpa using this

theorem mem_fetchChunkMetadata_score {table : List SectionRecord}
    {results : List SearchHit} {c : Chunk}
    (h : c ∈ fetchChunkMetadata table results) :
    ∃ hit ∈ results, c.score = hit.score := by
  simp only [fetchChunkMetadata, List.mem_filterMap] at h
  obtain ⟨i, hi, hc⟩ := h
  rcases Option.map_eq_some'.mp hc with ⟨r, hfind, rfl⟩
  have hrid : r.id = i := dbFind_id hfind
  have hs : (r.id, scoreLookup (results.map (fun r => (r.id, r.score))) r.id) ∈
      results.map (fun r => (r.id, r.score)) := by
    apply scoreLookup_mem
    rw [hrid]
    simpa [List.map_map, Function.comp] using hi
  rcases List.mem_map.mp hs with ⟨hit, hhit, heq⟩
  refine ⟨hit, hhit, ?_⟩
  have : hit.score = scoreLookup (results.map (fun r => (r.id, r.score))) r.id := by
    exact congrArg Prod.snd heq
  simp [recordToChunk, this]

theorem fetchChunkMetadata_head {table : List SectionRecord}
    {h₀ : SearchHit} {rest : List SearchHit} {r : SectionRecord}
    (hfind : dbFind table h₀.id = some r) :
    (fetchChunkMetadata table (h₀ :: rest)).head? = some (recordToChunk r h₀.score) := by
  have hrid : r.id = h₀.id := dbFind_id hfind
  simp only [fetchChunkMetadata, List.map_cons, List.filterMap_cons, hfind,
    Option.map_some']
  simp [hrid, scoreLookup]

theorem pairwise_desc_head_max {h₀ : SearchHit} {rest : List SearchHit}
    (hs : (h₀ :: rest).Pairwise (fun a b => b.score ≤ a.score)) :
    ∀ x ∈ h₀ :: rest, x.score ≤ h₀.score := by
  intro x hx
  rcases List.mem_cons.mp hx with rfl | hx'
  · exact le_refl _
  · exact (List.pairwise_cons.mp hs).1 x hx'

theorem enrichedFor_top (env : Env) (q : String) (tk : Nat) (thr : Rat)
    (std : String)
    (hsorted : (env.searchStd (env.embed q) std tk thr).Pairwise
      (fun a b => b.score ≤ a.score))
    (hcov : ∀ h ∈ env.searchStd (env.embed q) std tk thr,
      (dbFind env.table h.id).isSome)
    (hne : env.searchStd (env.embed q) std tk thr ≠ []) :
    ∃ c, (enrichedFor env q tk thr std).head? = some c ∧
      ∀ d ∈ enrichedFor env q tk thr std, d.score ≤ c.score := by
  rcases hres : env.searchStd (env.embed q) std tk thr with _ | ⟨h₀, rest⟩
  · exact absurd hres hne
  rcases Option.isSome_iff_exists.mp
      (hcov h₀ (by rw [hres]; exact List.mem_cons_self _ _)) with ⟨r, hfind⟩
  refine ⟨recordToChunk r h₀.score, ?_, ?_⟩
  · rw [enrichedFor, hres]
    exact fetchChunkMetadata_head hfind
  · intro d hd
    rw [enrichedFor, hres] at hd
    rcases mem_fetchChunkMetadata_score hd with ⟨hit, hhit, hscore⟩
    rw [hres] at hsorted
    have := pairwise_desc_head_max hsorted hit hhit
    simpa [recordToChunk, hscore] using this

/-! ## Claim theorems -/

/-- C1: for every query where each of the three corpora has at least one hit
above the score threshold (and the index returns results sorted descending
with distinct ids, all covered by the metadata table), `query_with_citations`
returns exactly one primary source per corpus — three in total, in corpus
order — and each primary is the top enriched hit of its corpus, whose score
dominates every enriched hit of that corpus. -/
theorem query_with_citations_one_primary_per_corpus
    (env : Env) (q : String) (tk : Nat) (thr : Rat)
    (hsorted : ∀ std ∈ standardsList,
      (env.searchStd (env.embed q) std tk thr).Pairwise
        (fun a b => b.score ≤ a.score))
    (hcov : ∀ std ∈ standardsList, ∀ h ∈ env.searchStd (env.embed q) std tk thr,
      (dbFind env.table h.id).isSome)
    (_hnodup : ∀ std ∈ standardsList,
      ((env.searchStd (env.embed q) std tk thr).map (fun h => h.id)).Nodup)
    (hne : ∀ std ∈ standardsList, env.searchStd (env.embed q) std tk thr ≠ []) :
    ∃ cP cQ cI,
      (enrichedFor env q tk thr "PMBOK").head? = some cP ∧
      (enrichedFor env q tk thr "PRINCE2").head? = some cQ ∧
      (enrichedFor env q tk thr "ISO_21502").head? = some cI ∧
      (queryWithCitations env q tk thr).primary_sources =
        [chunkToSourceRef cP, chunkToSourceRef cQ, chunkToSourceRef cI] ∧
      (∀ d ∈ enrichedFor env q tk thr "PMBOK", d.score ≤ cP.score) ∧
      (∀ d ∈ enrichedFor env q tk thr "PRINCE2", d.score ≤ cQ.score) ∧
      (∀ d ∈ enrichedFor env q tk thr "ISO_21502", d.score ≤ cI.score) := by
  have hP := enrichedFor_top env q tk thr "PMBOK"
    (hsorted _ (by simp [standardsList])) (hcov _ (by simp [standardsList]))
    (hne _ (by simp [standardsList]))
  have hQ := enrichedFor_top env q tk thr "PRINCE2"
    (hsorted _ (by simp [standardsList])) (hcov _ (by simp [standardsList]))
    (hne _ (by simp [standardsList]))
  have hI := enrichedFor_top env q tk thr "ISO_21502"
    (hsorted _ (by simp [standardsList])) (hcov _ (by simp [standardsList]))
    (hne _ (by simp [standardsList]))
  obtain ⟨cP, hPh, hPmax⟩ := hP
  obtain ⟨cQ, hQh, hQmax⟩ := hQ
  obtain ⟨cI, hIh, hImax⟩ := hI
  refine ⟨cP, cQ, cI, hPh, hQh, hIh, ?_, hPmax, hQmax, hImax⟩
  simp only [queryWithCitations, standardsList, List.filterMap_cons,
    List.filterMap_nil, hPh, hQh, hIh, Option.map_some', List.map_cons,
    List.map_nil, chunkToSourceRef_set_primary]

/-- Witness for C1 at the concrete example environment. -/
theorem query_with_citations_one_primary_per_corpus_witness :
    (queryWithCitations exEnv "risk" 3 0).primary_sources.length = 3 := by
  obtain ⟨cP, cQ, cI, _, _, _, h4, _⟩ :=
    query_with_citations_one_primary_per_corpus exEnv "risk" 3 0
      (by decide) (by decide) (by decide) (by decide)
  rw [h4]
  rfl

/-- C2: no entry of the returned evidence bundle (primary sources or
additional context) carries a relevance score strictly below the
caller-supplied score threshold, given that the vector index never returns a
hit below the threshold. -/
theorem query_with_citations_threshold_exclusion
    (env : Env) (q : String) (tk : Nat) (thr : Rat)
    (hthr : ∀ std ∈ standardsList, ∀ h ∈ env.searchStd (env.embed q) std tk thr,
      thr ≤ h.score) :
    ∀ s ∈ (queryWithCitations env q tk thr).primary_sources ++
        (queryWithCitations env q tk thr).additional_context,
      thr ≤ s.relevance_score := by
  intro s hs
  have key : ∀ std ∈ standardsList, ∀ c ∈ enrichedFor env q tk thr std,
      thr ≤ c.score := by
    intro std hstd c hc
    rcases mem_fetchChunkMetadata_score hc with ⟨hit, hhit, hscore⟩
    rw [hscore]
    exact hthr std hstd hit hhit
  rcases List.mem_append.mp hs with hs | hs
  · simp only [queryWithCitations, List.mem_map, List.mem_filterMap] at hs
    obtain ⟨pc, ⟨std, hstd, hpc⟩, rfl⟩ := hs
    rcases Option.map_eq_some'.mp hpc with ⟨c, hhead, rfl⟩
    have hc : c ∈ enrichedFor env q tk thr std := List.mem_of_mem_head? hhead
    exact key std hstd c hc
  · simp only [queryWithCitations, List.mem_map, List.mem_flatMap] at hs
    obtain ⟨ac, ⟨std, hstd, hac⟩, rfl⟩ := hs
    obtain ⟨c, hcd, rfl⟩ := hac
    have hc : c ∈ enrichedFor env q tk thr std := List.mem_of_mem_drop hcd
    exact key std hstd c hc

/-- Witness for C2 at the concrete example environment: the PMBOK primary
source scores at least the threshold 2/5. -/
theorem query_with_citations_threshold_exclusion_witness :
    (0 : Rat) ≤ exPrimaryRefP.relevance_score :=
  query_with_citations_threshold_exclusion exEnv "risk" 3 0
    (by decide) exPrimaryRefP (by decide)

theorem mem_upsertMax {acc : List Chunk} {c x : Chunk}
    (h : x ∈ upsertMax acc c) : x ∈ acc ∨ x = c := by
  induction acc with
  | nil => simp [upsertMax] at h; exact Or.inr h
  | cons d ds ih =>
      by_cases h1 : d.id = c.id
      · by_cases h2 : d.score < c.score
        · simp only [upsertMax, if_pos h1, if_pos h2, List.mem_cons] at h
          rcases h with rfl | h
          · exact Or.inr rfl
          · exact Or.inl (List.mem_cons_of_mem _ h)
        · simp only [upsertMax, if_pos h1, if_neg h2, List.mem_cons] at h
          rcases h with rfl | h
          · exact Or.inl (List.mem_cons_self _ _)
          · exact Or.inl (List.mem_cons_of_mem _ h)
      · simp only [upsertMax, if_neg h1, List.mem_cons] at h
        rcases h with rfl | h
        · exact Or.inl (List.mem_cons_self _ _)
        · rcases ih h with h | h
          · exact Or.inl (List.mem_cons_of_mem _ h)
          · exact Or.inr h

theorem keys_upsertMax (acc : List Chunk) (c : Chunk) :
    (upsertMax acc c).map (fun x => x.id) =
      if c.id ∈ acc.map (fun x => x.id) then acc.map (fun x => x.id)
      else acc.map (fun x => x.id) ++ [c.id] := by
  induction acc with
  | nil => simp [upsertMax]
  | cons d ds ih =>
      by_cases h1 : d.id = c.id
      · by_cases h2 : d.score < c.score
        · simp [upsertMax, if_pos h1, if_pos h2, h1]
        · simp [upsertMax, if_pos h1, if_neg h2, h1]
      · have h1' : ¬ c.id = d.id := fun h => h1 h.symm
        simp only [upsertMax, if_neg h1, List.map_cons, ih]
        by_cases h3 : c.id ∈ ds.map (fun x => x.id)
        · simp [h3, h1']
        · simp [h3, h1']

theorem spec_upsertMax {acc : List Chunk} {c : Chunk}
    (hnd : (acc.map (fun x => x.id)).Nodup) :
    ∀ x ∈ upsertMax acc c,
      (x ∈ acc ∧ x.id ≠ c.id) ∨
      (x ∈ acc ∧ x.id = c.id ∧ c.score ≤ x.score) ∨
      (x = c ∧ ∀ a ∈ acc, a.id = c.id → a.score ≤ c.score) := by
  induction acc with
  | nil =>
      intro x hx
      simp [upsertMax] at hx
      subst hx
      exact Or.inr (Or.inr ⟨rfl, by simp⟩)
  | cons d ds ih =>
      have hnd' : (ds.map (fun x => x.id)).Nodup := (List.nodup_cons.mp hnd).2
      have hdid : d.id ∉ ds.map (fun x => x.id) := (List.nodup_cons.mp hnd).1
      intro x hx
      by_cases h1 : d.id = c.id
      · by_cases h2 : d.score < c.score
        · simp only [upsertMax, if_pos h1, if_pos h2, List.mem_cons] at hx
          rcases hx with rfl | hx
          · refine Or.inr (Or.inr ⟨rfl, ?_⟩)
            intro a ha hac
            rcases List.mem_cons.mp ha with rfl | ha'
            · exact le_of_lt h2
            · exact absurd (hac ▸ List.mem_map.mpr ⟨a, ha', rfl⟩) (h1 ▸ hdid)
          · have hxid : x.id ≠ c.id := by
              intro hxc
              exact hdid (h1 ▸ hxc ▸ List.mem_map.mpr ⟨x, hx, rfl⟩)
            exact Or.inl ⟨List.mem_cons_of_mem _ hx, hxid⟩
        · simp only [upsertMax, if_pos h1, if_neg h2, List.mem_cons] at hx
          rcases hx with rfl | hx
          · exact Or.inr (Or.inl ⟨List.mem_cons_self _ _, h1, le_of_not_lt h2⟩)
          · have hxid : x.id ≠ c.id := by
              intro hxc
              exact hdid (h1 ▸ hxc ▸ List.mem_map.mpr ⟨x, hx, rfl⟩)
            exact Or.inl ⟨List.mem_cons_of_mem _ hx, hxid⟩
      · simp only [upsertMax, if_neg h1, List.mem_cons] at hx
        rcases hx with rfl | hx
        · exact Or.inl ⟨List.mem_cons_self _ _, h1⟩
        · rcases ih hnd' x hx with ⟨hm, hne⟩ | ⟨hm, hid, hle⟩ | ⟨rfl, hdom⟩
          · exact Or.inl ⟨List.mem_cons_of_mem _ hm, hne⟩
          · exact Or.inr (Or.inl ⟨List.mem_cons_of_mem _ hm, hid, hle⟩)
          · refine Or.inr (Or.inr ⟨rfl, ?_⟩)
            intro a ha hac
            rcases List.mem_cons.mp ha with rfl | ha'
            · exact absurd hac h1
            · exact hdom a ha' hac

theorem foldl_upsertMax_inv (l : List Chunk) :
    ∀ (acc seen : List Chunk),
      (∀ x ∈ acc, x ∈ seen) →
      (∀ x ∈ acc, ∀ d ∈ seen, d.id = x.id → d.score ≤ x.score) →
      (∀ d ∈ seen, ∃ x ∈ acc, x.id = d.id) →
      ((acc.map (fun x => x.id)).Nodup) →
      (∀ x ∈ l.foldl upsertMax acc, x ∈ seen ++ l) ∧
      (∀ x ∈ l.foldl upsertMax acc, ∀ d ∈ seen ++ l, d.id = x.id → d.score ≤ x.score) ∧
      (∀ d ∈ seen ++ l, ∃ x ∈ l.foldl upsertMax acc, x.id = d.id) ∧
      (((l.foldl upsertMax acc).map (fun x => x.id)).Nodup) := by
  induction l with
  | nil =>
      intro acc seen h1 h2 h3 h4
      simpa using ⟨h1, h2, h3, h4⟩
  | cons c l' ih =>
      intro acc seen h1 h2 h3 h4
      have hkeys := keys_upsertMax acc c
      -- the four invariants for the updated accumulator and seen ++ [c]
      have s1 : ∀ x ∈ upsertMax acc c, x ∈ seen ++ [c] := by
        intro x hx
        rcases mem_upsertMax hx with h | rfl
        · exact List.mem_append_left _ (h1 x h)
        · exact List.mem_append_right _ (List.mem_singleton.mpr rfl)
      have s2 : ∀ x ∈ upsertMax acc c, ∀ d ∈ seen ++ [c],
          d.id = x.id → d.score ≤ x.score := by
        intro x hx d hd hdx
        rcases spec_upsertMax h4 x hx with ⟨hm, hne⟩ | ⟨hm, hid, hle⟩ | ⟨rfl, hdom⟩
        · rcases List.mem_append.mp hd with hd' | hd'
          · exact h2 x hm d hd' hdx
          · rw [List.mem_singleton.mp hd'] at hdx
            exact absurd hdx.symm hne
        · rcases List.mem_append.mp hd with hd' | hd'
          · exact h2 x hm d hd' hdx
          · rw [List.mem_singleton.mp hd']
            exact hle
        · rcases List.mem_append.mp hd with hd' | hd'
          · rcases h3 d hd' with ⟨a, ha, haid⟩
            have hac : a.id = x.id := haid.trans hdx
            have h5 := hdom a ha hac
            have h6 := h2 a ha d hd' (hdx.trans hac.symm)
            exact le_trans h6 h5
          · rw [List.mem_singleton.mp hd']
      have s3 : ∀ d ∈ seen ++ [c], ∃ x ∈ upsertMax acc c, x.id = d.id := by
        intro d hd
        have hsub : ∀ i ∈ acc.map (fun x => x.id),
            i ∈ (upsertMax acc c).map (fun x => x.id) := by
          intro i hi
          rw [hkeys]
          split
          · exact hi
          · exact List.mem_append_left _ hi
        have hcid : c.id ∈ (upsertMax acc c).map (fun x => x.id) := by
          rw [hkeys]
          split
          · assumption
          · exact List.mem_append_right _ (List.mem_singleton.mpr rfl)
        rcases List.mem_append.mp hd with hd' | hd'
        · rcases h3 d hd' with ⟨a, ha, haid⟩
          have := hsub a.id (List.mem_map.mpr ⟨a, ha, rfl⟩)
          rcases List.mem_map.mp this with ⟨x, hxm, hxid⟩
          exact ⟨x, hxm, hxid.trans haid⟩
        · rw [List.mem_singleton.mp hd']
          rcases List.mem_map.mp hcid with ⟨x, hxm, hxid⟩
          exact ⟨x, hxm, hxid⟩
      have s4 : ((upsertMax acc c).map (fun x => x.id)).Nodup := by
        rw [hkeys]
        split
        · exact h4
        · next hnotin => simp [List.nodup_append, h4, hnotin]
      have hmain := ih (upsertMax acc c) (seen ++ [c]) s1 s2 s3 s4
      rw [List.append_cons seen c l']
      simpa using hmain

/-- C3: in `generate_process`, deduplication over the accumulated hits keeps
each section id exactly once, and the kept entry is one of the accumulated
hits carrying the maximum score observed for that id across all queries. -/
theorem generate_process_dedup_keeps_max (env : Env) (pt : String)
    (fas pris : Option (List String)) (tk : Nat) :
    (∀ c ∈ dedupByMaxScore (processAllChunks env pt fas pris tk),
        c ∈ processAllChunks env pt fas pris tk ∧
        ∀ d ∈ processAllChunks env pt fas pris tk, d.id = c.id → d.score ≤ c.score) ∧
    (∀ c ∈ processAllChunks env pt fas pris tk,
        ((dedupByMaxScore (processAllChunks env pt fas pris tk)).countP
            (fun x => x.id == c.id)) = 1) := by
  have hinv := foldl_upsertMax_inv (processAllChunks env pt fas pris tk) [] []
    (by simp) (by simp) (by simp) (by simp)
  simp only [List.nil_append] at hinv
  obtain ⟨i1, i2, i3, i4⟩ := hinv
  constructor
  · intro c hc
    exact ⟨i1 c hc, fun d hd => i2 c hc d hd⟩
  · intro c hc
    have hmem : c.id ∈ (dedupByMaxScore (processAllChunks env pt fas pris tk)).map
        (fun x => x.id) := by
      rcases i3 c hc with ⟨x, hx, hxid⟩
      exact hxid ▸ List.mem_map.mpr ⟨x, hx, rfl⟩
    have : ((dedupByMaxScore (processAllChunks env pt fas pris tk)).map
        (fun x => x.id)).count c.id = 1 :=
      List.count_eq_one_of_mem i4 hmem
    rw [List.count] at this
    rw [← this, List.countP_map]
    rfl

/-- Witness for C3 at the concrete example environment: the PMBOK section
surfaces from all five search queries and is kept exactly once. -/
theorem generate_process_dedup_keeps_max_witness :
    ((dedupByMaxScore (processAllChunks exEnv "software" (some ["risk"]) none 5)).countP
        (fun x => x.id == exProcChunkP.id)) = 1 :=
  (generate_process_dedup_keeps_max exEnv "software" (some ["risk"]) none 5).2
    exProcChunkP (by decide)

/-- C6: the process-synthesis evidence passed to generation contains at most
15 sections; it is a descending-score-sorted selection from the deduplicated
hits, and every deduplicated hit left out scores no higher than any selected
one (the top 15 by score). -/
theorem generate_process_top_fifteen (env : Env) (pt : String)
    (fas pris : Option (List String)) (tk : Nat) :
    (processTopChunks env pt fas pris tk).length ≤ 15 ∧
    (processTopChunks env pt fas pris tk).Pairwise chunkGE ∧
    (∀ c ∈ processTopChunks env pt fas pris tk,
        c ∈ dedupByMaxScore (processAllChunks env pt fas pris tk)) ∧
    (∀ c ∈ dedupByMaxScore (processAllChunks env pt fas pris tk),
        c ∉ processTopChunks env pt fas pris tk →
        ∀ c' ∈ processTopChunks env pt fas pris tk, c.score ≤ c'.score) := by
  set u := dedupByMaxScore (processAllChunks env pt fas pris tk) with hu
  have hsorted : (sortByScoreDesc u).Pairwise chunkGE :=
    List.sorted_insertionSort chunkGE u
  have hperm : List.Perm (sortByScoreDesc u) u := List.perm_insertionSort chunkGE u
  have htop : processTopChunks env pt fas pris tk = (sortByScoreDesc u).take 15 := rfl
  refine ⟨?_, ?_, ?_, ?_⟩
  · rw [htop]
    exact List.length_take_le 15 (sortByScoreDesc u)
  · rw [htop]
    exact hsorted.sublist (List.take_sublist _ _)
  · intro c hc
    rw [htop] at hc
    exact hperm.subset (List.mem_of_mem_take hc)
  · intro c hc hnot c' hc'
    have hcs : c ∈ sortByScoreDesc u := hperm.mem_iff.mpr hc
    have hsplit : (sortByScoreDesc u).take 15 ++ (sortByScoreDesc u).drop 15 =
        sortByScoreDesc u := List.take_append_drop 15 (sortByScoreDesc u)
    have hpw : ((sortByScoreDesc u).take 15 ++ (sortByScoreDesc u).drop 15).Pairwise
        chunkGE := by rw [hsplit]; exact hsorted
    have hdom := (List.pairwise_append.mp hpw).2.2
    have hcdrop : c ∈ (sortByScoreDesc u).drop 15 := by
      rcases List.mem_append.mp (hsplit ▸ hcs) with h | h
      · exact absurd (htop ▸ h) hnot
      · exact h
    rw [htop] at hc'
    exact hdom c' hc' c hcdrop

/-- Witness for C6 at the concrete example environment: the selected PMBOK
chunk comes from the deduplicated evidence. -/
theorem generate_process_top_fifteen_witness :
    exProcChunkP ∈ dedupByMaxScore (processAllChunks exEnv "software" (some ["risk"]) none 5) :=
  (generate_process_top_fifteen exEnv "software" (some ["risk"]) none 5).2.2.1
    exProcChunkP (by decide)

/-- C4 counterexample: on a concrete well-formed section the code's citation
formatter does not produce the APA string the claim states — the code emits
`"{corpus} ({year}), Section {number}, {page_ref}"` with commas, no section
title and no trailing period, while the claimed format is
`"{corpus} ({year}). Section {number}: {title}. {page_ref}."`. -/
theorem format_citation_differs_from_spec_apa :
    formatCitation exChunkRisk = "PMBOK (2021), Section 2.8.5, p. 122" ∧
    specApaCitation exChunkRisk = "PMBOK (2021). Section 2.8.5: Risk. p. 122." ∧
    formatCitation exChunkRisk ≠ specApaCitation exChunkRisk := by
  refine ⟨rfl, rfl, ?_⟩
  decide

/-- C4 amended: for every section whose `page_end` is not the (untruthy) page
number 0, the citation formatter returns exactly
`"{corpus} ({year}), Section {section_number}, {page_ref}"`, where the year is
2021/2017/2020 for PMBOK/PRINCE2/ISO_21502 with default 2021, and `page_ref`
is `"p. {page_start}"` if `page_end` is absent or equals `page_start`, else
`"pp. {page_start}-{page_end}"`. -/
theorem format_citation_amended (c : Chunk) (h : c.page_end ≠ some 0) :
    formatCitation c = amendedCitation c := by
  have hyear : yearLookup yearMap c.standard = amendedYear c.standard := by
    by_cases h1 : c.standard = "PMBOK"
    · simp [yearLookup, yearMap, amendedYear, h1]
    · by_cases h2 : c.standard = "PRINCE2"
      · simp [yearLookup, yearMap, amendedYear, h1, h2, Ne.symm h1]
      · by_cases h3 : c.standard = "ISO_21502"
        · simp [yearLookup, yearMap, amendedYear, h1, h2, h3,
            Ne.symm h1, Ne.symm h2]
        · simp [yearLookup, yearMap, amendedYear, h1, h2, h3,
            Ne.symm h1, Ne.symm h2, Ne.symm h3]
  have hpage : chunkPageRef c.page_start c.page_end =
      amendedPageRef c.page_start c.page_end := by
    cases hpe : c.page_end with
    | none => simp [chunkPageRef, amendedPageRef]
    | some pe =>
        have hpe0 : pe ≠ 0 := by
          intro h0
          exact h (by rw [hpe, h0])
        by_cases hps : pe = c.page_start
        · simp [chunkPageRef, amendedPageRef, hps]
        · simp [chunkPageRef, amendedPageRef, hpe0, hps]
  rw [formatCitation, amendedCitation, hyear, hpage]

/-- Witness for C4's amended claim at a concrete section with a page range. -/
theorem format_citation_amended_witness :
    exChunkPages.page_end ≠ some 0 ∧
    formatCitation exChunkPages = amendedCitation exChunkPages :=
  ⟨by decide, format_citation_amended exChunkPages (by decide)⟩

/-- C5: for every query and chunk list, the citation user prompt lists every
primary chunk's content in full inside the block opened by the
"PRIMARY CONTEXT" heading, and every non-primary chunk's content truncated to
its first 300 characters inside the block opened by the
"ADDITIONAL CONTEXT" heading; the truncated entry depends only on the first
300 characters of the chunk's content. -/
theorem citation_prompt_full_primary_truncated_additional
    (q : String) (chunks : List Chunk) :
    ((chunks.filter (fun c => c.is_primary)) ≠ [] →
      ∃ post, buildCitationUserPromptParts q chunks =
        questionPart q :: primaryHeadingPart ::
          ((chunks.filter (fun c => c.is_primary)).flatMap citationEntryFull
            ++ post)) ∧
    ((chunks.filter (fun c => !c.is_primary)) ≠ [] →
      ∃ pre post, buildCitationUserPromptParts q chunks =
        pre ++ additionalHeadingPart ::
          ((chunks.filter (fun c => !c.is_primary)).flatMap citationEntryTrunc
            ++ post)) ∧
    (∀ c ∈ chunks, c.is_primary = true →
      ("Content: " ++ c.content ++ "\n") ∈ buildCitationUserPromptParts q chunks) ∧
    (∀ c ∈ chunks, c.is_primary = false →
      ("Content: " ++ contentTake 300 c.content ++ "...\n") ∈
        buildCitationUserPromptParts q chunks) ∧
    (∀ c : Chunk, citationEntryTrunc c =
      citationEntryTrunc { c with content := contentTake 300 c.content }) := by
  have hprim : (chunks.filter (fun c => c.is_primary)) ≠ [] →
      ∃ post, buildCitationUserPromptParts q chunks =
        questionPart q :: primaryHeadingPart ::
          ((chunks.filter (fun c => c.is_primary)).flatMap citationEntryFull
            ++ post) := by
    intro h
    have he : (chunks.filter (fun c => c.is_primary)).isEmpty = false :=
      List.isEmpty_eq_false.mpr h
    refine ⟨(if (chunks.filter (fun c => !c.is_primary)).isEmpty then [] else
      additionalHeadingPart ::
        (chunks.filter (fun c => !c.is_primary)).flatMap citationEntryTrunc)
      ++ [citationClosingPart], ?_⟩
    simp [buildCitationUserPromptParts, he]
  have hadd : (chunks.filter (fun c => !c.is_primary)) ≠ [] →
      ∃ pre post, buildCitationUserPromptParts q chunks =
        pre ++ additionalHeadingPart ::
          ((chunks.filter (fun c => !c.is_primary)).flatMap citationEntryTrunc
            ++ post) := by
    intro h
    have he : (chunks.filter (fun c => !c.is_primary)).isEmpty = false :=
      List.isEmpty_eq_false.mpr h
    refine ⟨questionPart q ::
      (if (chunks.filter (fun c => c.is_primary)).isEmpty then [] else
        primaryHeadingPart ::
          (chunks.filter (fun c => c.is_primary)).flatMap citationEntryFull),
      [citationClosingPart], ?_⟩
    simp [buildCitationUserPromptParts, he]
  refine ⟨hprim, hadd, ?_, ?_, ?_⟩
  · intro c hc hp
    have hcf : c ∈ chunks.filter (fun c => c.is_primary) :=
      List.mem_filter.mpr ⟨hc, by simp [hp]⟩
    obtain ⟨post, hdec⟩ := hprim (List.ne_nil_of_mem hcf)
    rw [hdec]
    have : ("Content: " ++ c.content ++ "\n") ∈
        (chunks.filter (fun c => c.is_primary)).flatMap citationEntryFull :=
      List.mem_flatMap.mpr ⟨c, hcf, by simp [citationEntryFull]⟩
    simp only [List.mem_cons, List.mem_append]
    exact Or.inr (Or.inr (Or.inl this))
  · intro c hc hp
    have hcf : c ∈ chunks.filter (fun c => !c.is_primary) :=
      List.mem_filter.mpr ⟨hc, by simp [hp]⟩
    obtain ⟨pre, post, hdec⟩ := hadd (List.ne_nil_of_mem hcf)
    rw [hdec]
    have : ("Content: " ++ contentTake 300 c.content ++ "...\n") ∈
        (chunks.filter (fun c => !c.is_primary)).flatMap citationEntryTrunc :=
      List.mem_flatMap.mpr ⟨c, hcf, by simp [citationEntryTrunc]⟩
    simp only [List.mem_append, List.mem_cons]
    exact Or.inr (Or.inr (Or.inl this))
  · intro c
    simp [citationEntryTrunc, chunkHeaderPart, formatChunkCitation,
      contentTake_contentTake]

/-- Witness for C5 at a concrete primary and additional chunk. -/
theorem citation_prompt_full_primary_truncated_additional_witness :
    ("Content: " ++ exChunkPrim.content ++ "\n") ∈
      buildCitationUserPromptParts "What is risk?" [exChunkPrim, exChunkAdd] :=
  (citation_prompt_full_primary_truncated_additional "What is risk?"
    [exChunkPrim, exChunkAdd]).2.2.1 exChunkPrim (by simp) rfl

/-- C7 counterexample: at the out-of-contract input `query = ""` the service
method does not reject the request before external calls — the very first
external call of its trace is the embedding call on the empty query, so the
trace is in particular non-empty and no `InvalidRequest` rejection precedes
any external call. -/
theorem query_with_citations_empty_query_not_rejected :
    (queryWithCitationsTrace exEnv "" 3 (2/5)).head? =
      some (ExtCall.embedQuery "") ∧
    queryWithCitationsTrace exEnv "" 3 (2/5) ≠ [] := by
  constructor
  · rfl
  · intro h
    simp [queryWithCitationsTrace] at h

/-- C7 amended: `query_with_citations` itself performs no parameter
validation — for every query string (the empty one included) its first
external call is the embedding call; an empty query is instead rejected by the
transport layer's request schema, whose validation fails on the empty string
for any limit and threshold. -/
theorem query_with_citations_validation_in_transport_layer
    (env : Env) (q : String) (tk : Nat) (thr : Rat) :
    (queryWithCitationsTrace env q tk thr).head? = some (ExtCall.embedQuery q) ∧
    searchRequestValid "" tk thr = false :=
  ⟨rfl, rfl⟩

/-- C8: every provider failure during generation — connectivity, rate-limit,
or provider-status — makes `generate_response` raise a single error (never
return a result) whose message preserves the distinguishing failure kind. -/
theorem generate_response_single_error_kind_preserved
    (o : GroqOutcome) (k : FailureKind) (h : groqFailureKind o = some k) :
    ∃ msg, generateResponse o = Except.error msg ∧
      failureKindOfMessage msg = some k := by
  cases o with
  | ok c m p t u f => simp [groqFailureKind] at h
  | connectionError e =>
      simp only [groqFailureKind, Option.some.injEq] at h
      subst h
      refine ⟨"Groq API connection error: " ++ e, rfl, ?_⟩
      have hpre : connErrMsgStart.data.isPrefixOf
          ("Groq API connection error: " ++ e).data = true := by
        rw [String.data_append]
        exact List.isPrefixOf_iff_prefix.mpr ⟨_, rfl⟩
      unfold failureKindOfMessage
      rw [hpre]
      simp
  | rateLimitError e =>
      simp only [groqFailureKind, Option.some.injEq] at h
      subst h
      exact ⟨rateLimitMsg, rfl, by decide⟩
  | statusError code =>
      simp only [groqFailureKind, Option.some.injEq] at h
      subst h
      refine ⟨"Groq API error: " ++ toString code, rfl, ?_⟩
      have hconn : ¬ (connErrMsgStart.data.isPrefixOf
          ("Groq API error: " ++ toString code).data = true) := by
        rw [String.data_append]
        intro habs
        have h1 : List.IsPrefix connErrMsgStart.data
            (statusErrMsgStart.data ++ (toString code).data) :=
          List.isPrefixOf_iff_prefix.mp habs
        have h2 : List.IsPrefix statusErrMsgStart.data
            (statusErrMsgStart.data ++ (toString code).data) := ⟨_, rfl⟩
        rcases List.prefix_or_prefix_of_prefix h1 h2 with h3 | h3
        · exact absurd h3 (by decide)
        · exact absurd h3 (by decide)
      have hrate : ¬ ("Groq API error: " ++ toString code = rateLimitMsg) := by
        intro heq
        have : List.IsPrefix statusErrMsgStart.data rateLimitMsg.data := by
          rw [← heq, String.data_append]
          exact ⟨_, rfl⟩
        exact absurd this (by decide)
      have hstat : statusErrMsgStart.data.isPrefixOf
          ("Groq API error: " ++ toString code).data = true := by
        rw [String.data_append]
        exact List.isPrefixOf_iff_prefix.mpr ⟨_, rfl⟩
      have hconn' : connErrMsgStart.data.isPrefixOf
          ("Groq API error: " ++ toString code).data = false := by
        revert hconn
        cases connErrMsgStart.data.isPrefixOf ("Groq API error: " ++ toString code).data
        · intro _
          rfl
        · intro habs
          exact absurd rfl habs
      unfold failureKindOfMessage
      rw [hconn', hstat, if_neg hrate]
      simp

/-- Witness for C8 at a concrete provider-status failure. -/
theorem generate_response_single_error_kind_preserved_witness :
    ∃ msg, generateResponse (GroqOutcome.statusError 503) = Except.error msg ∧
      failureKindOfMessage msg = some FailureKind.providerStatus :=
  generate_response_single_error_kind_preserved
    (GroqOutcome.statusError 503) FailureKind.providerStatus rfl

/-- C9 counterexample: with `max_retries = 4` and a provider that rate-limits
every attempt, the sleep durations of one batch are `20, 40, 60` seconds —
an arithmetic progression with no common ratio, so the backoff delays do not
increase exponentially (the loop computes `delay_between_batches * retries`);
the batch does fail after exhausting the bounded retries. -/
theorem embed_backoff_not_exponential :
    embedBatchWaits (fun _ => EmbedAttempt.rateLimited) 4 20 = [20, 40, 60] ∧
    embedBatchOutcome (fun _ => EmbedAttempt.rateLimited) 4 20 =
      some EmbedFailure.rateLimitExhausted ∧
    ¬ ∃ r : Rat, 40 = r * 20 ∧ 60 = r * 40 := by
  refine ⟨?_, ?_, ?_⟩
  · norm_num [embedBatchWaits, embedBatchRun, embedBatchGo]
  · norm_num [embedBatchOutcome, embedBatchRun, embedBatchGo]
  · rintro ⟨r, h1, h2⟩
    have hr : r = 2 := by linarith
    rw [hr] at h2
    norm_num at h2

theorem embedBatchGo_all_rateLimited (k : Nat) (d : Rat) :
    ∀ (fuel retries attempt : Nat) (waits : List Rat),
      retries + fuel = k → retries + 1 ≤ k →
      embedBatchGo (fun _ => EmbedAttempt.rateLimited) k d fuel retries attempt waits =
        (waits ++ (List.range (k - 1 - retries)).map
            (fun (i : Nat) => d * ((retries : Rat) + (i : Rat) + 1)),
         some EmbedFailure.rateLimitExhausted) := by
  intro fuel
  induction fuel with
  | zero =>
      intro retries attempt waits hinv hlt
      omega
  | succ fuel ih =>
      intro retries attempt waits hinv hlt
      by_cases hle : k ≤ retries + 1
      · have hkr : k - 1 - retries = 0 := by omega
        simp [embedBatchGo, if_pos hle, hkr]
      · have hrec := ih (retries + 1) (attempt + 1)
          (waits ++ [d * ((retries : Rat) + 1)]) (by omega) (by omega)
        have hkr : k - 1 - retries = (k - 1 - (retries + 1)) + 1 := by omega
        have hlist :
            (waits ++ [d * ((retries : Rat) + 1)]) ++
              (List.range (k - 1 - (retries + 1))).map
                (fun (i : Nat) => d * (((retries + 1 : Nat) : Rat) + (i : Rat) + 1)) =
            waits ++ (List.range (k - 1 - retries)).map
                (fun (i : Nat) => d * ((retries : Rat) + (i : Rat) + 1)) := by
          rw [hkr, List.range_succ_eq_map, List.map_cons, List.map_map,
            List.append_assoc, List.singleton_append]
          apply congrArg (fun t => waits ++ t)
          simp only [List.cons.injEq]
          constructor
          · push_cast
            ring
          · apply List.map_congr_left
            intro i _
            simp only [Function.comp_apply]
            push_cast
            ring
        simp only [embedBatchGo, if_neg hle, hrec, hlist]

/-- C9 amended: for every positive retry bound and base delay, a persistently
rate-limited batch is retried with *linearly* increasing backoff — the i-th
sleep lasts `delay * i` — until the bounded retry count is exhausted, after
which the rate-limit failure propagates (surfaced as the embedding-unavailable
condition). -/
theorem embed_backoff_linear_until_exhaustion (k : Nat) (d : Rat) (hk : 1 ≤ k) :
    embedBatchRun (fun _ => EmbedAttempt.rateLimited) k d =
      ((List.range (k - 1)).map (fun (i : Nat) => d * ((i : Rat) + 1)),
       some EmbedFailure.rateLimitExhausted) := by
  have h := embedBatchGo_all_rateLimited k d k 0 0 [] (by omega) (by omega)
  rw [embedBatchRun, h]
  simp only [List.nil_append, Nat.sub_zero, Nat.cast_zero]
  congr 1
  apply List.map_congr_left
  intro i _
  ring

/-- Witness for C9's amended claim at `max_retries = 3`, `delay = 20`. -/
theorem embed_backoff_linear_until_exhaustion_witness :
    embedBatchRun (fun _ => EmbedAttempt.rateLimited) 3 20 =
      ((List.range 2).map (fun (i : Nat) => (20 : Rat) * ((i : Rat) + 1)),
       some EmbedFailure.rateLimitExhausted) :=
  embed_backoff_linear_until_exhaustion 3 20 (by omega)

theorem processStdBlock_decomp (hd : String) (cs : List Chunk) :
    ∃ pre, processStdBlock hd cs = pre ++ (cs.take 5).map processChunkPart := by
  by_cases h : cs.isEmpty
  · refine ⟨[], ?_⟩
    rw [List.isEmpty_iff] at h
    simp [processStdBlock, h]
  · refine ⟨[hd], ?_⟩
    simp only [processStdBlock, h, Bool.false_eq_true, if_false]
    rfl

/-- C10: in `generate_process` the prompt contains, for each standard, the
entries of at most the first five of that standard's selected chunks, each
depending only on the first 400 characters of its content — while
`source_sections_count` counts every selected chunk (up to 15) and
`standards_used` contains the standard of every selected chunk, including any
chunk beyond its standard's first five that is silently omitted from the
prompt. -/
theorem generate_process_prompt_caps_and_counts (env : Env)
    (pd pt psz : String) (cons pris fas : Option (List String)) (tk : Nat) :
    (processTopChunks env pt fas pris tk).length ≤ 15 ∧
    (∀ std ∈ standardsList, ∃ pre post,
      buildProcessUserPromptParts pd pt psz (cons.getD []) (pris.getD [])
          (fas.getD []) (processTopChunks env pt fas pris tk) =
        pre ++ (((processTopChunks env pt fas pris tk).filter
            (fun c => c.standard == std)).take 5).map processChunkPart ++ post ∧
      (((processTopChunks env pt fas pris tk).filter
          (fun c => c.standard == std)).take 5).length ≤ 5) ∧
    (∀ c : Chunk, processChunkPart c =
      processChunkPart { c with content := contentTake 400 c.content }) ∧
    (generateProcess env pd pt psz cons pris fas tk).source_sections_count =
      (processTopChunks env pt fas pris tk).length ∧
    (∀ c ∈ processTopChunks env pt fas pris tk,
      c.standard ∈ (generateProcess env pd pt psz cons pris fas tk).standards_used) := by
  refine ⟨?_, ?_, ?_, rfl, ?_⟩
  · exact List.length_take_le 15 _
  · intro std hstd
    simp only [standardsList, List.mem_cons, List.not_mem_nil, or_false] at hstd
    set top := processTopChunks env pt fas pris tk with htop
    obtain ⟨preP, hP⟩ := processStdBlock_decomp pmbokBlockHeading
      (top.filter (fun c => c.standard == "PMBOK"))
    obtain ⟨preQ, hQ⟩ := processStdBlock_decomp prince2BlockHeading
      (top.filter (fun c => c.standard == "PRINCE2"))
    obtain ⟨preI, hI⟩ := processStdBlock_decomp isoBlockHeading
      (top.filter (fun c => c.standard == "ISO_21502"))
    rcases hstd with rfl | rfl | rfl
    · refine ⟨processScenarioParts pd pt psz (cons.getD []) (pris.getD [])
          (fas.getD []) ++ [standardsContentHeading] ++ preP,
        processStdBlock prince2BlockHeading
            (top.filter (fun c => c.standard == "PRINCE2")) ++
          processStdBlock isoBlockHeading
            (top.filter (fun c => c.standard == "ISO_21502")) ++
          processTaskParts, ?_, List.length_take_le 5 _⟩
      simp [buildProcessUserPromptParts, hP, List.append_assoc]
    · refine ⟨processScenarioParts pd pt psz (cons.getD []) (pris.getD [])
          (fas.getD []) ++ [standardsContentHeading] ++
          processStdBlock pmbokBlockHeading
            (top.filter (fun c => c.standard == "PMBOK")) ++ preQ,
        processStdBlock isoBlockHeading
            (top.filter (fun c => c.standard == "ISO_21502")) ++
          processTaskParts, ?_, List.length_take_le 5 _⟩
      simp [buildProcessUserPromptParts, hQ, List.append_assoc]
    · refine ⟨processScenarioParts pd pt psz (cons.getD []) (pris.getD [])
          (fas.getD []) ++ [standardsContentHeading] ++
          processStdBlock pmbokBlockHeading
            (top.filter (fun c => c.standard == "PMBOK")) ++
          processStdBlock prince2BlockHeading
            (top.filter (fun c => c.standard == "PRINCE2")) ++ preI,
        processTaskParts, ?_, List.length_take_le 5 _⟩
      simp [buildProcessUserPromptParts, hI, List.append_assoc]
  · intro c
    simp [processChunkPart, formatChunkCitation, contentTake_contentTake]
  · intro c hc
    simp only [generateProcess]
    exact List.mem_dedup.mpr (List.mem_map.mpr ⟨c, hc, rfl⟩)

/-- Witness for C10 at the concrete example environment: the selected PMBOK
chunk's standard is reported in `standards_used`. -/
theorem generate_process_prompt_caps_and_counts_witness :
    exProcChunkP.standard ∈
      (generateProcess exEnv "a tracking app" "software" "medium"
        none none (some ["risk"]) 5).standards_used :=
  (generate_process_prompt_caps_and_counts exEnv "a tracking app" "software"
    "medium" none none (some ["risk"]) 5).2.2.2.2 exProcChunkP (by decide)
